import Mathlib

/-!
Shallow embedding of `src/app/src/main/cpp/llama_jni.cpp` (qaliblog/aterm).

The file models the three JNI entry points:

* `loadModelNative`  (lines 24-80)  — model/context lifecycle;
* `generateNative`   (lines 82-284) — the generation controller: priming
  decode of the prompt batch, the token-generation loop with the repetition
  guards, the response-length cap and decode-failure classification;
* the process-wide globals `g_model`, `g_ctx`, `model_loaded` (lines 12-14).

The inference engine (llama.cpp) is external to the repository; its calls
(`llama_decode`, `llama_sampler_sample`, `llama_token_to_piece`,
`llama_vocab_is_eog`, …) are parameters of the embedding (`Engine`,
`LoadEngine`).  Every run additionally produces a trace of the engine calls
the controller issues (`Ev`), so that claims about *which* calls are made,
and in which order, can be stated.  C++ `std::string` values are modelled as
`List Char`.
-/

namespace LlamaJni

/-- Process-wide globals of `llama_jni.cpp` (lines 12-14): `g_model`, `g_ctx`,
`model_loaded`.  The opaque native handles are represented by `Option Nat`
ids (`none` = `nullptr`). -/
structure GlobalState where
  g_model : Option Nat
  g_ctx : Option Nat
  model_loaded : Bool
  deriving DecidableEq

/-- `DEFAULT_N_CTX` (line 17): fixed context capacity. -/
def DEFAULT_N_CTX : Nat := 2048

/-- `DEFAULT_N_PREDICT` (line 19): configured max-new-tokens budget. -/
def DEFAULT_N_PREDICT : Int := 128

/-- `MAX_REPETITION` (line 170). -/
def MAX_REPETITION : Nat := 2

/-- `MAX_REPEATED_PHRASES` (line 173). -/
def MAX_REPEATED_PHRASES : Nat := 4

/-- `MAX_RESPONSE_LENGTH` (line 172): the caller-supplied cap when positive,
otherwise the 800-character default. -/
def MAX_RESPONSE_LENGTH (maxResponseLength : Int) : Nat :=
  if 0 < maxResponseLength then maxResponseLength.toNat else 800

/-- Terminal condition of the generation loop of `generateNative`:
`budgetExhausted` is the `while` condition turning false (line 175),
`eosToken` line 180, `rep30Stop` line 199, `rep20Stop` line 213,
`phraseStop` line 233, `ctxFull`/`aborted`/`decodeFailed` lines 244-254,
`lengthCap` line 262. -/
inductive StopReason
  | budgetExhausted
  | eosToken
  | rep30Stop
  | rep20Stop
  | phraseStop
  | ctxFull
  | aborted
  | decodeFailed
  | lengthCap
  deriving DecidableEq

/-- Observable engine calls issued by the controller: `decode n status` is a
`llama_decode` call on a batch of `n` tokens returning `status`;
`check budget` is the admission computation at lines 154-162 (`n_predict`
computed and tested); `sample t` is a `llama_sampler_sample` call returning
token `t`; `append s` records a fragment appended to the response
(line 190). -/
inductive Ev
  | decode (n : Nat) (status : Int)
  | check (budget : Int)
  | sample (t : Int)
  | append (s : List Char)
  deriving DecidableEq

/-- Repetition-guard state of one generation session (lines 166-169):
`last_30_chars`, `last_20_chars`, `repetition_count_30`,
`repetition_count_20`. -/
structure Windows where
  last30 : List Char
  last20 : List Char
  rep30 : Nat
  rep20 : Nat
  deriving DecidableEq

/-- Trailing `n` characters of `l`, i.e. `substr(l.length - n)` as used at
lines 194, 208, 224 (always called with `n ≤ l.length`). -/
def lastN (n : Nat) (l : List Char) : List Char := l.drop (l.length - n)

/-- Scanning worker for `countOcc`: advance one position on a mismatch,
count and skip past the match otherwise.  `fuel` only bounds the recursion
(each step consumes at least one character, so `fuel = hay.length` never
runs out before the scan ends); the conjunct `needle ≠ []` likewise only
serves the bound: at the single call site the needle always has exactly 15
characters (C++ `find` with an empty needle would loop forever there). -/
def countOccAux (needle : List Char) : Nat → List Char → Nat
  | 0, _ => 0
  | _, [] => 0
  | fuel + 1, c :: rest =>
    if needle ≠ [] ∧ needle.isPrefixOf (c :: rest) then
      1 + countOccAux needle fuel (rest.drop (needle.length - 1))
    else
      countOccAux needle fuel rest

/-- Non-overlapping left-to-right occurrence count (lines 226-230): the C++
loop repeatedly `find`s the needle from the current position and advances
the position past each match (`pos += last_15.length()`). -/
def countOcc (needle hay : List Char) : Nat := countOccAux needle hay.length hay

/-- Third repetition check (lines 221-235): once the response exceeds 100
characters, count occurrences of the trailing 15 characters in the whole
response; stop when the count exceeds `MAX_REPEATED_PHRASES`. -/
def guardPhrase (resp : List Char) (w : Windows) : Windows × Option StopReason :=
  if 100 < resp.length then
    if MAX_REPEATED_PHRASES < countOcc (lastN 15 resp) resp then
      (w, some StopReason.phraseStop)
    else
      (w, none)
  else
    (w, none)

/-- Second repetition check (lines 207-219): trailing-20 window, threshold
`MAX_REPETITION + 1`; falls through to the phrase check. -/
def guard20 (resp : List Char) (w : Windows) : Windows × Option StopReason :=
  if 20 ≤ resp.length then
    let cur20 := lastN 20 resp
    if cur20 = w.last20 then
      if MAX_REPETITION + 1 ≤ w.rep20 + 1 then
        ({ w with rep20 := w.rep20 + 1 }, some StopReason.rep20Stop)
      else
        guardPhrase resp { w with rep20 := w.rep20 + 1, last20 := cur20 }
    else
      guardPhrase resp { w with rep20 := 0, last20 := cur20 }
  else
    guardPhrase resp w

/-- Repetition guard run after each appended fragment (lines 193-235): the
trailing-30 window check, then the trailing-20 window check, then the
repeated-phrase check; the first to fire stops the loop.  On a stop the C++
`break` skips the remaining `last_30_chars`/`last_20_chars` assignments,
which is reproduced here. -/
def guardStep (resp : List Char) (w : Windows) : Windows × Option StopReason :=
  if 30 ≤ resp.length then
    let cur30 := lastN 30 resp
    if cur30 = w.last30 then
      if MAX_REPETITION ≤ w.rep30 + 1 then
        ({ w with rep30 := w.rep30 + 1 }, some StopReason.rep30Stop)
      else
        guard20 resp { w with rep30 := w.rep30 + 1, last30 := cur30 }
    else
      guard20 resp { w with rep30 := 0, last30 := cur30 }
  else
    guard20 resp w

/-- The engine calls consumed by one `generateNative` session, as a black
box (the inference engine is outside the repository).  `sample i` and
`genDecode i` are the results of the `llama_sampler_sample` and single-token
`llama_decode` calls of loop iteration `i`; `promptDecode` is the status of
the priming decode of the prompt batch (line 137); `piece t` is the
`llama_token_to_piece` conversion (`none` models `n_chars ≤ 0` or buffer
overflow, which the code skips silently, lines 187-188); `exc` models a
C++ exception escaping the `try` block (lines 271-275): `none` = no
exception. -/
structure Engine where
  exc : Option (List Char)
  promptDecode : Int
  sample : Nat → Int
  eos : Int
  isEog : Int → Bool
  piece : Int → Option (List Char)
  genDecode : Nat → Int

/-- Result of the generation `while` loop: final response, stop reason, and
the trace of engine calls issued inside the loop. -/
structure LoopOut where
  resp : List Char
  reason : StopReason
  evs : List Ev
  deriving DecidableEq

/-- Classification of a non-zero mid-generation decode status
(lines 243-255): 1 = context full, 2 = aborted, other = decode failed. -/
def classifyDecode (s : Int) : StopReason :=
  if s = 1 then StopReason.ctxFull
  else if s = 2 then StopReason.aborted
  else StopReason.decodeFailed

/-- Tail of one loop iteration after the EOS check and the append/guard
phase (lines 238-265): decode the single new token, classify a non-zero
status, otherwise accept the token, advance and test the response-length
cap; `k` is the continuation running the remaining iterations. -/
def genStep (e : Engine) (cap : Nat) (i : Nat) (resp : List Char) (w : Windows)
    (evs1 : List Ev) (k : List Char → Windows → LoopOut) : LoopOut :=
  let st := e.genDecode i
  if st = 0 then
    if cap < resp.length then
      ⟨resp, StopReason.lengthCap, evs1 ++ [Ev.decode 1 st]⟩
    else
      let rest := k resp w
      ⟨rest.resp, rest.reason, evs1 ++ Ev.decode 1 st :: rest.evs⟩
  else
    ⟨resp, classifyDecode st, evs1 ++ [Ev.decode 1 st]⟩

/-- The generation `while` loop (lines 175-266).  `fuel` is the remaining
token budget: the C++ condition `n_cur < tokens.size() + n_predict` with
`n_cur` starting at `tokens.size()` and incremented once per completed
iteration is exactly `n_predict` iterations.  `i` is the iteration index
feeding the engine oracles. -/
def genLoop (e : Engine) (cap : Nat) : Nat → Nat → List Char → Windows → LoopOut
  | 0, _, resp, _ => ⟨resp, StopReason.budgetExhausted, []⟩
  | fuel + 1, i, resp, w =>
    let t := e.sample i
    if t = e.eos ∨ e.isEog t = true then
      ⟨resp, StopReason.eosToken, [Ev.sample t]⟩
    else
      match e.piece t with
      | none => genStep e cap i resp w [Ev.sample t]
          (fun r w' => genLoop e cap fuel (i + 1) r w')
      | some s =>
        match guardStep (resp ++ s) w with
        | (_, some g) => ⟨resp ++ s, g, [Ev.sample t, Ev.append s]⟩
        | (w2, none) => genStep e cap i (resp ++ s) w2 [Ev.sample t, Ev.append s]
            (fun r w' => genLoop e cap fuel (i + 1) r w')

/-- Pre-loop failures of `generateNative`: model-not-loaded (line 84),
tokenize failure (line 121), priming-decode failures (lines 138-149) and
the prompt-too-long admission failure (lines 157-162). -/
inductive PreErr
  | notLoaded
  | tokenizeFailed
  | promptCtxFull
  | promptDecodeFailed
  | promptTooLong
  deriving DecidableEq

/-- Outcome of one `generateNative` call before rendering to the returned
string: a pre-loop error, an exception caught by the catch-all
(lines 271-275), or a completed loop with its final response and stop
reason. -/
inductive GenResult
  | preError (p : PreErr)
  | caught (msg : List Char)
  | completed (text : List Char) (reason : StopReason)
  deriving DecidableEq

/-- `Java_com_qali_aterm_llm_LocalLlamaModel_generateNative`
(lines 82-284), as a function of the engine oracle, the globals, the
tokenized prompt and `maxResponseLength`.  Returns the structured outcome,
the trace of engine calls, and the globals after the call (the function
never assigns `g_model`, `g_ctx` or `model_loaded`, so every return path
pairs its result with the unchanged `g`).  The priming decode (line 137)
happens before the `n_predict` admission computation (lines 152-162), which
the trace records faithfully. -/
def generateNative (e : Engine) (g : GlobalState) (tokens : List Int) (mrl : Int) :
    GenResult × List Ev × GlobalState :=
  if ¬ g.model_loaded ∨ g.g_ctx = none ∨ g.g_model = none then
    (GenResult.preError PreErr.notLoaded, [], g)
  else
    match e.exc with
    | some msg => (GenResult.caught msg, [], g)
    | none =>
      if tokens = [] then
        (GenResult.preError PreErr.tokenizeFailed, [], g)
      else
        if e.promptDecode ≠ 0 then
          if e.promptDecode = 1 then
            (GenResult.preError PreErr.promptCtxFull,
              [Ev.decode tokens.length e.promptDecode], g)
          else
            (GenResult.preError PreErr.promptDecodeFailed,
              [Ev.decode tokens.length e.promptDecode], g)
        else
          let nPredict : Int :=
            min DEFAULT_N_PREDICT ((DEFAULT_N_CTX : Int) - tokens.length - 10)
          if nPredict ≤ 0 then
            (GenResult.preError PreErr.promptTooLong,
              [Ev.decode tokens.length 0, Ev.check nPredict], g)
          else
            let out := genLoop e (MAX_RESPONSE_LENGTH mrl) nPredict.toNat 0 []
              ⟨[], [], 0, 0⟩
            (GenResult.completed out.resp out.reason,
              Ev.decode tokens.length 0 :: Ev.check nPredict :: out.evs, g)

/-- Abbreviation for the session's effective prediction budget `n_predict`
(lines 155-156): `min(DEFAULT_N_PREDICT, DEFAULT_N_CTX − prompt length −
10)`. -/
def sessionNP (tokens : List Int) : Int :=
  min DEFAULT_N_PREDICT ((DEFAULT_N_CTX : Int) - tokens.length - 10)

/-- Abbreviation for the loop output of one session that reaches the
generation loop. -/
def sessionOut (e : Engine) (tokens : List Int) (mrl : Int) : LoopOut :=
  genLoop e (MAX_RESPONSE_LENGTH mrl) (sessionNP tokens).toNat 0 [] ⟨[], [], 0, 0⟩

/-- Error string of line 86. -/
def errNotLoaded : List Char :=
  "Error: Model not loaded. Please load a model first.".toList

/-- Error string of line 125. -/
def errTokenize : List Char := "Error: Failed to tokenize prompt".toList

/-- Error string of line 143. -/
def errPromptCtxFull : List Char :=
  "Error: Context is full. Prompt is too long. Please reduce the prompt size or increase context window.".toList

/-- Error string of line 148. -/
def errPromptDecode : List Char := "Error: Failed to evaluate prompt".toList

/-- Error string of line 161. -/
def errPromptTooLong : List Char :=
  "Error: Prompt is too long. No room for generation. Please reduce the prompt size.".toList

/-- Exception message head of line 273. -/
def excMark : List Char := "Error: Exception during generation: ".toList

/-- Empty-response substitute of line 280. -/
def emptyMarker : List Char := "Error: No response generated".toList

/-- The string actually returned over JNI (the return statements at
lines 86, 125, 143, 148, 161, 283 together with the empty-response
substitution at lines 279-281, which applies to the post-loop and catch
paths). -/
def returnedString : GenResult → List Char
  | GenResult.preError PreErr.notLoaded => errNotLoaded
  | GenResult.preError PreErr.tokenizeFailed => errTokenize
  | GenResult.preError PreErr.promptCtxFull => errPromptCtxFull
  | GenResult.preError PreErr.promptDecodeFailed => errPromptDecode
  | GenResult.preError PreErr.promptTooLong => errPromptTooLong
  | GenResult.caught msg =>
      if excMark ++ msg = [] then emptyMarker else excMark ++ msg
  | GenResult.completed text _ =>
      if text = [] then emptyMarker else text

/-- Engine primitives consumed by `loadModelNative`: JNI path-string
extraction (line 37), `llama_model_load_from_file` (line 50) and
`llama_init_from_model` (line 66), each returning a handle or null. -/
structure LoadEngine where
  pathOk : Bool
  modelLoad : Option Nat
  ctxCreate : Option Nat
  deriving DecidableEq

/-- Resource events of one `loadModelNative` call: frees of the old pair
(lines 27-34), the fresh load/create calls, and the rollback free of the
just-loaded model when context creation fails (line 69). -/
inductive LoadEv
  | freeCtx (h : Nat)
  | freeModel (h : Nat)
  | loadedModel (h : Nat)
  | createdCtx (h : Nat)
  deriving DecidableEq

/-- `Java_com_qali_aterm_llm_LocalLlamaModel_loadModelNative`
(lines 24-80): tear down any existing context/model pair, clear the ready
flag, then load the model and create the context; on context-creation
failure free the just-loaded model; set the ready flag only after both
succeed. -/
def loadModelNative (e : LoadEngine) (g : GlobalState) :
    Bool × GlobalState × List LoadEv :=
  let evs0 : List LoadEv :=
    (match g.g_ctx with | some h => [LoadEv.freeCtx h] | none => []) ++
    (match g.g_model with | some h => [LoadEv.freeModel h] | none => [])
  if ¬ e.pathOk then
    (false, ⟨none, none, false⟩, evs0)
  else
    match e.modelLoad with
    | none => (false, ⟨none, none, false⟩, evs0)
    | some m =>
      match e.ctxCreate with
      | none =>
        (false, ⟨none, none, false⟩, evs0 ++ [LoadEv.loadedModel m, LoadEv.freeModel m])
      | some c =>
        (true, ⟨some m, some c, true⟩, evs0 ++ [LoadEv.loadedModel m, LoadEv.createdCtx c])

/-- `Java_com_qali_aterm_llm_LocalLlamaModel_unloadModelNative`
(lines 286-302): free the pair if present, clear the ready flag. -/
def unloadModelNative (g : GlobalState) : GlobalState × List LoadEv :=
  (⟨none, none, false⟩,
    (match g.g_ctx with | some h => [LoadEv.freeCtx h] | none => []) ++
    (match g.g_model with | some h => [LoadEv.freeModel h] | none => []))

/-- Fragments appended to the response, in order, read off a trace. -/
def appendsOf : List Ev → List (List Char)
  | [] => []
  | Ev.append s :: r => s :: appendsOf r
  | _ :: r => appendsOf r

/-- Number of `llama_decode` calls in a trace. -/
def decodeCount : List Ev → Nat
  | [] => 0
  | Ev.decode _ _ :: r => 1 + decodeCount r
  | _ :: r => decodeCount r

/-- Total number of tokens submitted across the `llama_decode` calls of a
trace. -/
def decodeTokens : List Ev → Nat
  | [] => 0
  | Ev.decode n _ :: r => n + decodeTokens r
  | _ :: r => decodeTokens r

/-- True when every decode event of the trace is preceded by an admission
check event; `seen` records whether a check has already occurred. -/
def checkBeforeEveryDecodeAux : List Ev → Bool → Bool
  | [], _ => true
  | Ev.check _ :: r, _ => checkBeforeEveryDecodeAux r true
  | Ev.decode _ _ :: r, seen => seen && checkBeforeEveryDecodeAux r seen
  | _ :: r, seen => checkBeforeEveryDecodeAux r seen

/-- Total length of a list of fragments. -/
def lenSum (l : List (List Char)) : Nat := (l.map List.length).sum

/-- A ready global state used by concrete runs. -/
def g0 : GlobalState := ⟨some 1, some 1, true⟩

/-- Empty repetition-guard state (session start, lines 166-169). -/
def w0 : Windows := ⟨[], [], 0, 0⟩

/-- Concrete engine: the very first sampled token is the EOS token. -/
def engEos : Engine :=
  ⟨none, 0, fun _ => 2, 2, fun _ => false, fun _ => none, fun _ => 0⟩

/-- Concrete engine: every sampled token detokenizes to thirty `A`s. -/
def engRep : Engine :=
  ⟨none, 0, fun _ => 7, 2, fun _ => false,
    fun t => if t = 7 then some (List.replicate 30 'A') else none,
    fun _ => 0⟩

/-- Concrete engine: two fragments of thirty `A`s, then the EOS token. -/
def engRepTwice : Engine :=
  ⟨none, 0, fun i => if i < 2 then 7 else 2, 2, fun _ => false,
    fun t => if t = 7 then some (List.replicate 30 'A') else none,
    fun _ => 0⟩

/-- Concrete engine: one fragment, then the single-token decode fails with
status 1 (context full mid-generation). -/
def engDecodeFail : Engine :=
  ⟨none, 0, fun _ => 7, 2, fun _ => false,
    fun t => if t = 7 then some ['h', 'i'] else none,
    fun _ => 1⟩

/-- Concrete engine: the priming decode of the prompt batch fails with
status 3. -/
def engPromptFail : Engine :=
  ⟨none, 3, fun _ => 2, 2, fun _ => false, fun _ => none, fun _ => 0⟩

/-- A 105-character response made of seven copies of a 15-character block,
for the repeated-phrase witness. -/
def phraseResp : List Char := (List.replicate 7 "ABCDEFGHIJKLMNO".toList).flatten

theorem appendsOf_append (l₁ l₂ : List Ev) :
    appendsOf (l₁ ++ l₂) = appendsOf l₁ ++ appendsOf l₂ := by
  induction l₁ with
  | nil => simp [appendsOf]
  | cons h t ih => cases h <;> simp [appendsOf, ih]

theorem decodeCount_append (l₁ l₂ : List Ev) :
    decodeCount (l₁ ++ l₂) = decodeCount l₁ + decodeCount l₂ := by
  induction l₁ with
  | nil => simp [decodeCount]
  | cons h t ih => cases h <;> simp [decodeCount, ih] <;> omega

theorem decodeTokens_append (l₁ l₂ : List Ev) :
    decodeTokens (l₁ ++ l₂) = decodeTokens l₁ + decodeTokens l₂ := by
  induction l₁ with
  | nil => simp [decodeTokens]
  | cons h t ih => cases h <;> simp [decodeTokens, ih] <;> omega

theorem checkBeforeEveryDecodeAux_true (l : List Ev) :
    checkBeforeEveryDecodeAux l true = true := by
  induction l with
  | nil => rfl
  | cons h t ih => cases h <;> simp [checkBeforeEveryDecodeAux, ih]

theorem guardPhrase_stop_shape (resp : List Char) (w : Windows) (x : StopReason)
    (h : (guardPhrase resp w).2 = some x) : x = StopReason.phraseStop := by
  simp only [guardPhrase] at h
  split_ifs at h <;> simp_all

theorem guard20_stop_shape (resp : List Char) (w : Windows) (x : StopReason)
    (h : (guard20 resp w).2 = some x) :
    x = StopReason.rep20Stop ∨ x = StopReason.phraseStop := by
  simp only [guard20] at h
  split_ifs at h
  · simp_all
  · exact Or.inr (guardPhrase_stop_shape _ _ _ h)
  · exact Or.inr (guardPhrase_stop_shape _ _ _ h)
  · exact Or.inr (guardPhrase_stop_shape _ _ _ h)

/-- The repetition guard can only report one of the three repetition stop
reasons. -/
theorem guardStep_stop_shape (resp : List Char) (w : Windows) (x : StopReason)
    (h : (guardStep resp w).2 = some x) :
    x = StopReason.rep30Stop ∨ x = StopReason.rep20Stop ∨ x = StopReason.phraseStop := by
  simp only [guardStep] at h
  split_ifs at h
  · simp_all
  · exact Or.inr (guard20_stop_shape _ _ _ h)
  · exact Or.inr (guard20_stop_shape _ _ _ h)
  · exact Or.inr (guard20_stop_shape _ _ _ h)

theorem classifyDecode_shape (s : Int) :
    classifyDecode s = StopReason.ctxFull ∨ classifyDecode s = StopReason.aborted ∨
      classifyDecode s = StopReason.decodeFailed := by
  unfold classifyDecode
  split_ifs <;> simp

/-- The final response of the loop is the initial response followed by all
appended fragments of its trace, in order: nothing already accumulated is
ever discarded or rewritten. -/
theorem genLoop_resp (e : Engine) (cap : Nat) :
    ∀ (fuel i : Nat) (resp : List Char) (w : Windows),
      (genLoop e cap fuel i resp w).resp =
        resp ++ (appendsOf (genLoop e cap fuel i resp w).evs).flatten := by
  intro fuel
  induction fuel with
  | zero => intro i resp w; simp [genLoop, appendsOf]
  | succ fuel ih =>
    intro i resp w
    by_cases heos : e.sample i = e.eos ∨ e.isEog (e.sample i) = true
    · simp [genLoop, heos, appendsOf]
    · cases hp : e.piece (e.sample i) with
      | none =>
        simp only [genLoop, if_neg heos, hp]
        simp only [genStep]
        split_ifs with hst hcap
        · simp [appendsOf, appendsOf_append]
        · simp [appendsOf, appendsOf_append, ih]
        · simp [appendsOf, appendsOf_append]
      | some s =>
        simp only [genLoop, if_neg heos, hp]
        cases hg : guardStep (resp ++ s) w with
        | mk w2 g =>
          cases g with
          | some gr => simp [appendsOf]
          | none =>
            simp only [genStep]
            split_ifs with hst hcap
            · simp [appendsOf, appendsOf_append]
            · simp [appendsOf, appendsOf_append, ih]
            · simp [appendsOf, appendsOf_append]

theorem getLast?_append_right {α : Type} (l₁ l₂ : List α) (h : l₂ ≠ []) :
    (l₁ ++ l₂).getLast? = l₂.getLast? := by
  rw [List.getLast?_append]
  cases hl : l₂.getLast? with
  | none => exact absurd (List.getLast?_eq_none_iff.mp hl) h
  | some a => rfl

/-- Helper for `genLoop_fail`: the decode phase of one iteration. -/
theorem genStep_fail (e : Engine) (cap i : Nat) (resp : List Char) (w : Windows)
    (evs1 : List Ev) (k : List Char → Windows → LoopOut)
    (hnd : ∀ n st, Ev.decode n st ∉ evs1)
    (hk : ∀ s, s ≠ 0 → Ev.decode 1 s ∈ (k resp w).evs →
      (k resp w).evs.getLast? = some (Ev.decode 1 s) ∧
      (k resp w).reason = classifyDecode s)
    (s : Int) (hs : s ≠ 0)
    (hmem : Ev.decode 1 s ∈ (genStep e cap i resp w evs1 k).evs) :
    (genStep e cap i resp w evs1 k).evs.getLast? = some (Ev.decode 1 s) ∧
    (genStep e cap i resp w evs1 k).reason = classifyDecode s := by
  simp only [genStep] at hmem ⊢
  split_ifs at hmem ⊢ with hst hcap
  · rw [hst] at hmem
    rcases List.mem_append.mp hmem with h | h
    · exact absurd h (hnd _ _)
    · simp at h
      exact absurd h hs
  · rw [hst] at hmem ⊢
    rcases List.mem_append.mp hmem with h | h
    · exact absurd h (hnd _ _)
    · rcases List.mem_cons.mp h with h' | h'
      · simp at h'
        exact absurd h' hs
      · have hne := List.ne_nil_of_mem h'
        obtain ⟨hl, hr⟩ := hk s hs h'
        refine ⟨?_, hr⟩
        have hsplit : Ev.decode 1 0 :: (k resp w).evs = [Ev.decode 1 0] ++ (k resp w).evs := rfl
        rw [hsplit, getLast?_append_right _ _ (by simp [hne]),
          getLast?_append_right [Ev.decode 1 0] _ hne]
        exact hl
  · rcases List.mem_append.mp hmem with h | h
    · exact absurd h (hnd _ _)
    · simp at h
      subst h
      exact ⟨List.getLast?_concat _, rfl⟩

/-- If the trace of the loop contains a single-token decode with a non-zero
status, that decode is the very last engine call of the loop (the loop
stops there) and the stop reason is its classification (1 = context full,
2 = aborted, other = decode failed). -/
theorem genLoop_fail (e : Engine) (cap : Nat) :
    ∀ (fuel i : Nat) (resp : List Char) (w : Windows) (s : Int), s ≠ 0 →
      Ev.decode 1 s ∈ (genLoop e cap fuel i resp w).evs →
      (genLoop e cap fuel i resp w).evs.getLast? = some (Ev.decode 1 s) ∧
      (genLoop e cap fuel i resp w).reason = classifyDecode s := by
  intro fuel
  induction fuel with
  | zero => intro i resp w s hs hmem; simp [genLoop] at hmem
  | succ fuel ih =>
    intro i resp w s hs hmem
    by_cases heos : e.sample i = e.eos ∨ e.isEog (e.sample i) = true
    · simp [genLoop, heos] at hmem
    · cases hp : e.piece (e.sample i) with
      | none =>
        simp only [genLoop, if_neg heos, hp] at hmem ⊢
        exact genStep_fail e cap i resp w _ _ (by simp)
          (fun s hs hm => ih (i + 1) resp w s hs hm) s hs hmem
      | some s' =>
        simp only [genLoop, if_neg heos, hp] at hmem ⊢
        cases hg : guardStep (resp ++ s') w with
        | mk w2 g =>
          rw [hg] at hmem
          cases g with
          | some gr => simp at hmem
          | none =>
            exact genStep_fail e cap i (resp ++ s') w2 _ _ (by simp)
              (fun s hs hm => ih (i + 1) (resp ++ s') w2 s hs hm) s hs hmem

/-- The loop issues at most `fuel` decode calls, each on a single token. -/
theorem genLoop_count (e : Engine) (cap : Nat) :
    ∀ (fuel i : Nat) (resp : List Char) (w : Windows),
      decodeCount (genLoop e cap fuel i resp w).evs ≤ fuel ∧
      decodeTokens (genLoop e cap fuel i resp w).evs ≤ fuel := by
  intro fuel
  induction fuel with
  | zero => intro i resp w; simp [genLoop, decodeCount, decodeTokens]
  | succ fuel ih =>
    intro i resp w
    by_cases heos : e.sample i = e.eos ∨ e.isEog (e.sample i) = true
    · simp [genLoop, heos, decodeCount, decodeTokens]
    · cases hp : e.piece (e.sample i) with
      | none =>
        simp only [genLoop, if_neg heos, hp]
        simp only [genStep]
        split_ifs with hst hcap
        · simp [decodeCount, decodeTokens, decodeCount_append, decodeTokens_append]
        · have := ih (i + 1) resp w
          simp [decodeCount, decodeTokens, decodeCount_append, decodeTokens_append]
          omega
        · simp [decodeCount, decodeTokens, decodeCount_append, decodeTokens_append]
      | some s =>
        simp only [genLoop, if_neg heos, hp]
        cases hg : guardStep (resp ++ s) w with
        | mk w2 g =>
          cases g with
          | some gr => simp [decodeCount, decodeTokens]
          | none =>
            simp only [genStep]
            split_ifs with hst hcap
            · simp [decodeCount, decodeTokens, decodeCount_append, decodeTokens_append]
            · have := ih (i + 1) (resp ++ s) w2
              simp [decodeCount, decodeTokens, decodeCount_append, decodeTokens_append]
              omega
            · simp [decodeCount, decodeTokens, decodeCount_append, decodeTokens_append]

theorem classifyDecode_ne_budget (s : Int) :
    classifyDecode s ≠ StopReason.budgetExhausted := by
  unfold classifyDecode
  split_ifs <;> simp

/-- Length-cap invariant of the loop: starting below the cap, the response
is still at or below the cap whenever a new fragment is about to be
appended (every strict prefix of the appended fragments keeps the response
within the cap), and a loop that ends by exhausting the token budget ends
with the response within the cap. -/
theorem genLoop_cap (e : Engine) (cap : Nat) :
    ∀ (fuel i : Nat) (resp : List Char) (w : Windows), resp.length ≤ cap →
      (∀ j, j < (appendsOf (genLoop e cap fuel i resp w).evs).length →
        resp.length + lenSum ((appendsOf (genLoop e cap fuel i resp w).evs).take j) ≤ cap) ∧
      ((genLoop e cap fuel i resp w).reason = StopReason.budgetExhausted →
        (genLoop e cap fuel i resp w).resp.length ≤ cap) := by
  intro fuel
  induction fuel with
  | zero =>
    intro i resp w hr
    constructor
    · intro j hj
      simp [genLoop, appendsOf] at hj
    · intro _
      simpa [genLoop] using hr
  | succ fuel ih =>
    intro i resp w hr
    by_cases heos : e.sample i = e.eos ∨ e.isEog (e.sample i) = true
    · constructor
      · intro j hj
        simp [genLoop, heos, appendsOf] at hj
      · intro hb
        simp [genLoop, heos] at hb
    · cases hp : e.piece (e.sample i) with
      | none =>
        simp only [genLoop, if_neg heos, hp, genStep]
        split_ifs with hst hcap
        · constructor
          · intro j hj
            simp [appendsOf, appendsOf_append] at hj
          · intro hb
            simp at hb
        · have hin := ih (i + 1) resp w hr
          constructor
          · intro j hj
            simp only [appendsOf_append, appendsOf] at hj ⊢
            simpa using hin.1 j (by simpa using hj)
          · intro hb
            exact hin.2 hb
        · constructor
          · intro j hj
            simp [appendsOf, appendsOf_append] at hj
          · intro hb
            exact absurd hb (classifyDecode_ne_budget _)
      | some s =>
        simp only [genLoop, if_neg heos, hp]
        cases hg : guardStep (resp ++ s) w with
        | mk w2 g =>
          cases g with
          | some gr =>
            constructor
            · intro j hj
              simp only [appendsOf, List.length_cons, List.length_nil] at hj
              interval_cases j
              simpa [lenSum] using hr
            · intro hb
              have := guardStep_stop_shape (resp ++ s) w gr (by rw [hg])
              simp only at hb
              rw [hb] at this
              rcases this with h | h | h <;> exact absurd h (by simp)
          | none =>
            simp only [genStep]
            split_ifs with hst hcap
            · constructor
              · intro j hj
                simp only [appendsOf_append, appendsOf, List.append_nil,
                  List.length_cons, List.length_nil] at hj
                interval_cases j
                simpa [lenSum] using hr
              · intro hb
                simp at hb
            · have hin := ih (i + 1) (resp ++ s) w2 (Nat.le_of_not_lt hcap)
              constructor
              · intro j hj
                simp only [appendsOf_append, appendsOf, List.singleton_append,
                  List.length_cons] at hj ⊢
                cases j with
                | zero =>
                  simpa [lenSum] using hr
                | succ jj =>
                  have hjj : jj <
                      (appendsOf (genLoop e cap fuel (i + 1) (resp ++ s) w2).evs).length := by
                    omega
                  have h1 := hin.1 jj hjj
                  simp only [List.take_succ_cons, lenSum, List.map_cons, List.sum_cons] at h1 ⊢
                  have hla : (resp ++ s).length = resp.length + s.length := by simp
                  omega
              · intro hb
                exact hin.2 hb
            · constructor
              · intro j hj
                simp only [appendsOf_append, appendsOf, List.append_nil,
                  List.length_cons, List.length_nil] at hj
                interval_cases j
                simpa [lenSum] using hr
              · intro hb
                exact absurd hb (classifyDecode_ne_budget _)

/-- Unfolding of `generateNative` on the prompt-too-long path: the model is
ready, tokenization succeeded, the priming decode succeeded, but the
prediction budget is non-positive. -/
theorem generateNative_tooLong (e : Engine) (g : GlobalState) (tokens : List Int)
    (mrl : Int)
    (hm : g.model_loaded = true) (hc : g.g_ctx ≠ none) (hgm : g.g_model ≠ none)
    (hexc : e.exc = none) (ht : tokens ≠ []) (hp : e.promptDecode = 0)
    (hnp : sessionNP tokens ≤ 0) :
    generateNative e g tokens mrl =
      (GenResult.preError PreErr.promptTooLong,
        [Ev.decode tokens.length 0, Ev.check (sessionNP tokens)], g) := by
  have harith : (2048 : Int) ≤ 10 + tokens.length := by
    have h' := hnp
    simp only [sessionNP, DEFAULT_N_CTX, DEFAULT_N_PREDICT] at h'
    rcases min_le_iff.mp h' with h | h <;> omega
  simp only [generateNative, hexc, hm, hc, hgm, ht, hp]
  simp only [sessionNP, DEFAULT_N_CTX, DEFAULT_N_PREDICT] at hnp ⊢
  simp [hnp, harith]

/-- Unfolding of `generateNative` on the path that reaches the generation
loop: priming decode, admission check, then the loop trace. -/
theorem generateNative_loop (e : Engine) (g : GlobalState) (tokens : List Int)
    (mrl : Int)
    (hm : g.model_loaded = true) (hc : g.g_ctx ≠ none) (hgm : g.g_model ≠ none)
    (hexc : e.exc = none) (ht : tokens ≠ []) (hp : e.promptDecode = 0)
    (hnp : ¬ sessionNP tokens ≤ 0) :
    generateNative e g tokens mrl =
      (GenResult.completed (sessionOut e tokens mrl).resp (sessionOut e tokens mrl).reason,
        Ev.decode tokens.length 0 :: Ev.check (sessionNP tokens) ::
          (sessionOut e tokens mrl).evs, g) := by
  have harith : 10 + (tokens.length : Int) < 2048 := by
    have h' := hnp
    simp only [sessionNP, DEFAULT_N_CTX, DEFAULT_N_PREDICT] at h'
    have h'' := lt_min_iff.mp (lt_of_not_le h')
    omega
  simp only [generateNative, hexc, hm, hc, hgm, ht, hp]
  simp only [sessionOut, sessionNP, DEFAULT_N_CTX, DEFAULT_N_PREDICT] at hnp ⊢
  simp [hnp, harith]

/-- C10: `generateNative` never modifies the process-wide model-lifecycle
state: on every input — all pre-loop error paths, the exception catch-all
and the normal loop — the `g_model` handle, the `g_ctx` handle and the
`model_loaded` flag after the call are exactly what they were before it
(the source function contains no assignment to the globals of
lines 12-14). -/
theorem generate_preserves_globals (e : Engine) (g : GlobalState)
    (tokens : List Int) (mrl : Int) :
    (generateNative e g tokens mrl).2.2 = g := by
  simp only [generateNative]
  split
  · rfl
  · split
    · rfl
    · split
      · rfl
      · split
        · split
          · rfl
          · rfl
        · split
          · rfl
          · rfl

/-- C5: a non-zero status of the priming decode of the full prompt batch
makes `generateNative` fail before any generation-loop iteration: status 1
yields the context-full error, any other non-zero status the
decode-failed error, and the trace is exactly the one priming decode — no
token is sampled and no generation-step decode is issued. -/
theorem priming_failure_classified (e : Engine) (g : GlobalState)
    (tokens : List Int) (mrl : Int)
    (hm : g.model_loaded = true) (hc : g.g_ctx ≠ none) (hgm : g.g_model ≠ none)
    (hexc : e.exc = none) (ht : tokens ≠ []) (hp : e.promptDecode ≠ 0) :
    (generateNative e g tokens mrl).1 =
      (if e.promptDecode = 1 then GenResult.preError PreErr.promptCtxFull
       else GenResult.preError PreErr.promptDecodeFailed) ∧
    (generateNative e g tokens mrl).2.1 = [Ev.decode tokens.length e.promptDecode] := by
  by_cases hp1 : e.promptDecode = 1 <;>
    simp [generateNative, hexc, hm, hc, hgm, ht, hp, hp1]

/-- C6: every failing `loadModelNative` call leaves the globals in the
fully-unloaded state (`g_model = nullptr`, `g_ctx = nullptr`,
`model_loaded = false`); in particular when context creation fails after a
successful model load, the just-loaded model handle is freed before the
failure is returned. -/
theorem load_failure_leaves_unloaded (e : LoadEngine) (g : GlobalState)
    (hfail : (loadModelNative e g).1 = false) :
    (loadModelNative e g).2.1 = ⟨none, none, false⟩ ∧
    (∀ m, e.pathOk = true → e.modelLoad = some m → e.ctxCreate = none →
      LoadEv.freeModel m ∈ (loadModelNative e g).2.2) := by
  constructor
  · simp only [loadModelNative] at hfail ⊢
    split_ifs at hfail ⊢
    · cases hml : e.modelLoad with
      | none => simp [hml]
      | some m =>
        cases hcc : e.ctxCreate with
        | none => simp [hml, hcc]
        | some c => simp [hml, hcc] at hfail
    · rfl
  · intro m hpath hml hcc
    simp [loadModelNative, hpath, hml, hcc]

/-- C4: if a single-token decode step after successful priming returns a
non-zero status, the loop stops there (the failing decode is the last
engine call of the trace), the stop reason is its classification
(1 = context full, 2 = aborted, other = decode failed), and the outcome
carries the full text accumulated so far — the concatenation of every
appended fragment — which is what the call returns (with the
empty-response marker only when nothing at all had been accumulated). -/
theorem decode_failure_keeps_text (e : Engine) (g : GlobalState)
    (tokens : List Int) (mrl : Int) (s : Int)
    (hm : g.model_loaded = true) (hc : g.g_ctx ≠ none) (hgm : g.g_model ≠ none)
    (hexc : e.exc = none) (ht : tokens ≠ []) (hp : e.promptDecode = 0)
    (hs : s ≠ 0) (hmem : Ev.decode 1 s ∈ (generateNative e g tokens mrl).2.1) :
    (generateNative e g tokens mrl).2.1.getLast? = some (Ev.decode 1 s) ∧
    (generateNative e g tokens mrl).1 =
      GenResult.completed ((appendsOf (generateNative e g tokens mrl).2.1).flatten)
        (classifyDecode s) ∧
    returnedString (generateNative e g tokens mrl).1 =
      (if (appendsOf (generateNative e g tokens mrl).2.1).flatten = [] then emptyMarker
       else (appendsOf (generateNative e g tokens mrl).2.1).flatten) := by
  by_cases hnp : sessionNP tokens ≤ 0
  · rw [generateNative_tooLong e g tokens mrl hm hc hgm hexc ht hp hnp] at hmem
    simp at hmem
    exact absurd hmem.2 hs
  · rw [generateNative_loop e g tokens mrl hm hc hgm hexc ht hp hnp] at hmem ⊢
    simp only [List.mem_cons] at hmem
    rcases hmem with h | h | h
    · simp at h
      exact absurd h.2 hs
    · simp at h
    · have hfail :
        (sessionOut e tokens mrl).evs.getLast? = some (Ev.decode 1 s) ∧
        (sessionOut e tokens mrl).reason = classifyDecode s :=
        genLoop_fail e (MAX_RESPONSE_LENGTH mrl) (sessionNP tokens).toNat 0 []
          ⟨[], [], 0, 0⟩ s hs h
      have hresp : (sessionOut e tokens mrl).resp =
          (appendsOf (sessionOut e tokens mrl).evs).flatten := by
        have := genLoop_resp e (MAX_RESPONSE_LENGTH mrl) (sessionNP tokens).toNat 0
          [] ⟨[], [], 0, 0⟩
        simpa [sessionOut] using this
      have hne : (sessionOut e tokens mrl).evs ≠ [] := List.ne_nil_of_mem h
      have happ : appendsOf (Ev.decode tokens.length 0 :: Ev.check (sessionNP tokens) ::
          (sessionOut e tokens mrl).evs) = appendsOf (sessionOut e tokens mrl).evs := by
        simp [appendsOf]
      refine ⟨?_, ?_, ?_⟩
      · have hsplit : Ev.decode tokens.length 0 :: Ev.check (sessionNP tokens) ::
            (sessionOut e tokens mrl).evs =
            [Ev.decode tokens.length 0, Ev.check (sessionNP tokens)] ++
            (sessionOut e tokens mrl).evs := rfl
        simp only [hsplit]
        rw [getLast?_append_right _ _ hne]
        exact hfail.1
      · simp only [happ]
        rw [← hresp, hfail.2]
      · simp only [happ, returnedString, ← hresp, hfail.2]

/-- C5 (witness): a priming decode returning status 3 on a ready model
yields the decode-failed error with a one-entry trace. -/
theorem priming_failure_classified_wit :
    (generateNative engPromptFail g0 [0] 0).1 =
      GenResult.preError PreErr.promptDecodeFailed ∧
    (generateNative engPromptFail g0 [0] 0).2.1 = [Ev.decode 1 3] := by
  have h := priming_failure_classified engPromptFail g0 [0] 0 rfl (by decide)
    (by decide) rfl (by decide) (by decide)
  exact ⟨h.1.trans (by decide), h.2⟩

/-- C6 (witness): a load whose context creation fails leaves the unloaded
state and frees the just-loaded model handle 5. -/
theorem load_failure_leaves_unloaded_wit :
    (loadModelNative ⟨true, some 5, none⟩ g0).2.1 = ⟨none, none, false⟩ ∧
    LoadEv.freeModel 5 ∈ (loadModelNative ⟨true, some 5, none⟩ g0).2.2 := by
  have h := load_failure_leaves_unloaded ⟨true, some 5, none⟩ g0 (by decide)
  exact ⟨h.1, h.2 5 rfl rfl rfl⟩

/-- C4 (witness): with the single-token decode failing with status 1 right
after the first fragment, the session completes with the partial text
`hi` (context-full classification) and returns exactly that text. -/
theorem decode_failure_keeps_text_wit :
    (generateNative engDecodeFail g0 [0] 0).1 =
      GenResult.completed ['h', 'i'] (classifyDecode 1) ∧
    returnedString (generateNative engDecodeFail g0 [0] 0).1 = ['h', 'i'] := by
  have h := decode_failure_keeps_text engDecodeFail g0 [0] 0 1 rfl (by decide)
    (by decide) rfl (by decide) rfl (by decide) (by decide)
  constructor
  · rw [h.2.1]
    decide
  · rw [h.2.2]
    decide

/-- C1 (counterexample): a 2038-token prompt (2038 + 10 ≥ 2048 = capacity)
with a successfully-priming engine does give the prompt-too-long error, but
the trace contains a decode call: the priming decode of the full prompt
batch IS invoked before the failure is returned, contradicting the claim
that no decode call is made. -/
theorem promptTooLong_after_priming_decode_cex :
    (generateNative engEos g0 (List.replicate 2038 0) 0).1 =
      GenResult.preError PreErr.promptTooLong ∧
    decodeCount (generateNative engEos g0 (List.replicate 2038 0) 0).2.1 = 1 := by
  have hrep : (List.replicate 2038 (0 : Int)) ≠ [] := by
    intro h
    have h' := congrArg List.length h
    simp only [List.length_replicate, List.length_nil] at h'
    exact absurd h' (by decide)
  have hnp : sessionNP (List.replicate 2038 (0 : Int)) ≤ 0 := by
    simp only [sessionNP, List.length_replicate, DEFAULT_N_CTX, DEFAULT_N_PREDICT]
    decide
  have hug := generateNative_tooLong engEos g0 (List.replicate 2038 0) 0 rfl
    (by decide) (by decide) rfl hrep rfl hnp
  constructor
  · rw [hug]
  · rw [hug]
    simp only [decodeCount]

/-- C1 (amended): for a prompt whose token count plus the safety margin
reaches the capacity, on a ready model with a successful priming decode,
`generateNative` returns the prompt-too-long error and the trace is exactly
the priming decode of the prompt batch followed by the failed admission
check — so the priming decode IS issued before the failure, but no token is
sampled and no generation-step decode is issued. -/
theorem promptTooLong_exactly_one_decode (e : Engine) (g : GlobalState)
    (tokens : List Int) (mrl : Int)
    (hm : g.model_loaded = true) (hc : g.g_ctx ≠ none) (hgm : g.g_model ≠ none)
    (hexc : e.exc = none) (ht : tokens ≠ []) (hp : e.promptDecode = 0)
    (hlen : 2048 ≤ tokens.length + 10) :
    (generateNative e g tokens mrl).1 = GenResult.preError PreErr.promptTooLong ∧
    (generateNative e g tokens mrl).2.1 =
      [Ev.decode tokens.length 0, Ev.check (sessionNP tokens)] := by
  have hnp : sessionNP tokens ≤ 0 := by
    simp only [sessionNP, DEFAULT_N_CTX, DEFAULT_N_PREDICT]
    refine le_trans (min_le_right _ _) ?_
    omega
  rw [generateNative_tooLong e g tokens mrl hm hc hgm hexc ht hp hnp]
  exact ⟨rfl, rfl⟩

/-- C1 (witness): the amended statement applied to the 2038-token prompt. -/
theorem promptTooLong_exactly_one_decode_wit :
    (generateNative engEos g0 (List.replicate 2038 0) 0).1 =
      GenResult.preError PreErr.promptTooLong ∧
    (generateNative engEos g0 (List.replicate 2038 0) 0).2.1 =
      [Ev.decode 2038 0, Ev.check 0] := by
  have hrep : (List.replicate 2038 (0 : Int)) ≠ [] := by
    intro h
    have h' := congrArg List.length h
    simp only [List.length_replicate, List.length_nil] at h'
    exact absurd h' (by decide)
  have hlen : 2048 ≤ (List.replicate 2038 (0 : Int)).length + 10 := by
    simp only [List.length_replicate]
    omega
  have h := promptTooLong_exactly_one_decode engEos g0 (List.replicate 2038 0) 0
    rfl (by decide) (by decide) rfl hrep rfl hlen
  refine ⟨h.1, h.2.trans ?_⟩
  have h1 : (List.replicate 2038 (0 : Int)).length = 2038 := by
    simp only [List.length_replicate]
  have h2 : sessionNP (List.replicate 2038 (0 : Int)) = 0 := by
    simp only [sessionNP, List.length_replicate, DEFAULT_N_CTX, DEFAULT_N_PREDICT]
    decide
  rw [h1, h2]

/-- C3 (counterexample): a session that reaches the generation loop whose
trace starts with a decode event preceded by no admission-check event: the
bound is NOT verified by the controller before every decode call — the
priming decode precedes the only check. -/
theorem no_admission_before_priming_cex :
    (generateNative engEos g0 [0] 0).1 = GenResult.completed [] StopReason.eosToken ∧
    checkBeforeEveryDecodeAux (generateNative engEos g0 [0] 0).2.1 false = false := by
  constructor <;> rfl

/-- C3 (amended): for every session that reaches the generation loop, the
loop issues at most `n_predict = min(DEFAULT_N_PREDICT, capacity − prompt −
10)` single-token decodes, the total number of tokens submitted across all
decode calls (prompt batch included) stays within the capacity, and every
decode call after the priming one is preceded in the trace by the admission
check — the priming decode itself is issued before the check. -/
theorem decode_budget_invariant (e : Engine) (g : GlobalState)
    (tokens : List Int) (mrl : Int)
    (hm : g.model_loaded = true) (hc : g.g_ctx ≠ none) (hgm : g.g_model ≠ none)
    (hexc : e.exc = none) (ht : tokens ≠ []) (hp : e.promptDecode = 0)
    (hnp : 0 < sessionNP tokens) :
    (generateNative e g tokens mrl).2.1 =
      Ev.decode tokens.length 0 :: Ev.check (sessionNP tokens) ::
        (sessionOut e tokens mrl).evs ∧
    decodeCount (sessionOut e tokens mrl).evs ≤ (sessionNP tokens).toNat ∧
    decodeTokens (generateNative e g tokens mrl).2.1 ≤ DEFAULT_N_CTX ∧
    checkBeforeEveryDecodeAux (Ev.check (sessionNP tokens) ::
      (sessionOut e tokens mrl).evs) false = true := by
  have hnp' : ¬ sessionNP tokens ≤ 0 := by omega
  have hug := generateNative_loop e g tokens mrl hm hc hgm hexc ht hp hnp'
  have hcount := genLoop_count e (MAX_RESPONSE_LENGTH mrl) (sessionNP tokens).toNat 0
    [] ⟨[], [], 0, 0⟩
  refine ⟨by rw [hug], hcount.1, ?_, ?_⟩
  · rw [hug]
    have h1 : decodeTokens (sessionOut e tokens mrl).evs ≤ (sessionNP tokens).toNat :=
      hcount.2
    have hs1 : sessionNP tokens ≤ (2048 : Int) - tokens.length - 10 := by
      simp only [sessionNP, DEFAULT_N_CTX, DEFAULT_N_PREDICT]
      exact_mod_cast min_le_right _ _
    simp only [decodeTokens, DEFAULT_N_CTX]
    omega
  · simp [checkBeforeEveryDecodeAux, checkBeforeEveryDecodeAux_true]

/-- C3 (witness): the amended statement on a one-token prompt. -/
theorem decode_budget_invariant_wit :
    decodeTokens (generateNative engEos g0 [0] 0).2.1 ≤ DEFAULT_N_CTX ∧
    checkBeforeEveryDecodeAux (Ev.check (sessionNP [0]) ::
      (sessionOut engEos [0] 0).evs) false = true := by
  have h := decode_budget_invariant engEos g0 [0] 0 rfl (by decide) (by decide)
    rfl (by decide) rfl (by decide)
  exact ⟨h.2.2.1, h.2.2.2⟩

theorem guardPhrase_rep30 (resp : List Char) (w : Windows) :
    (guardPhrase resp w).1.rep30 = w.rep30 := by
  simp only [guardPhrase]
  split_ifs <;> rfl

theorem guard20_rep30 (resp : List Char) (w : Windows) :
    (guard20 resp w).1.rep30 = w.rep30 := by
  simp only [guard20]
  split_ifs <;> simp [guardPhrase_rep30]

theorem guard20_ne_rep30 (resp : List Char) (w : Windows) :
    (guard20 resp w).2 ≠ some StopReason.rep30Stop := by
  intro h
  rcases guard20_stop_shape resp w _ h with h' | h' <;> simp at h'

/-- C2 (amended): the trailing-30 repetition guard compares the new
trailing-30 suffix with the previous one, increments its counter on
equality and resets it to 0 otherwise, and stops exactly when the
incremented counter reaches `MAX_REPETITION = 2`; since the counter starts
at 0, the stop fires at the second consecutive equal comparison, i.e. at
the third consecutive occurrence of the same trailing-30 suffix — not the
second.  Concretely, an engine emitting thirty `A`s per step is stopped by
the guard at the third step with ninety `A`s accumulated. -/
theorem rep30_mechanism_and_third_stop :
    (∀ (resp : List Char) (w : Windows), 30 ≤ resp.length →
      (((guardStep resp w).2 = some StopReason.rep30Stop) ↔
        (lastN 30 resp = w.last30 ∧ MAX_REPETITION ≤ w.rep30 + 1)) ∧
      (lastN 30 resp = w.last30 → (guardStep resp w).1.rep30 = w.rep30 + 1) ∧
      (lastN 30 resp ≠ w.last30 → (guardStep resp w).1.rep30 = 0)) ∧
    (generateNative engRep g0 [0] 0).1 =
      GenResult.completed (List.replicate 90 'A') StopReason.rep30Stop := by
  constructor
  · intro resp w h30
    simp only [guardStep, if_pos h30]
    by_cases heq : lastN 30 resp = w.last30
    · rw [if_pos heq]
      by_cases hcnt : MAX_REPETITION ≤ w.rep30 + 1
      · rw [if_pos hcnt]
        exact ⟨by simp [heq, hcnt], fun _ => rfl, fun hne => absurd heq hne⟩
      · rw [if_neg hcnt]
        refine ⟨⟨fun h => absurd h (guard20_ne_rep30 _ _), ?_⟩, fun _ => ?_,
          fun hne => absurd heq hne⟩
        · rintro ⟨_, hc⟩
          exact absurd hc hcnt
        · rw [guard20_rep30]
    · rw [if_neg heq]
      refine ⟨⟨fun h => absurd h (guard20_ne_rep30 _ _), ?_⟩,
        fun he => absurd he heq, fun _ => ?_⟩
      · rintro ⟨he, _⟩
        exact absurd he heq
      · rw [guard20_rep30]
  · decide

/-- C2 (counterexample): producing the same trailing-30 suffix twice in a
row does NOT trigger the repetition stop: an engine emitting thirty `A`s
twice and then EOS yields identical trailing-30 suffixes at the first and
second steps, yet the session runs on and ends with the end-of-sequence
reason, not a repetition stop. -/
theorem rep30_twice_no_stop_cex :
    lastN 30 (List.replicate 30 'A') = lastN 30 (List.replicate 60 'A') ∧
    (generateNative engRepTwice g0 [0] 0).1 =
      GenResult.completed (List.replicate 60 'A') StopReason.eosToken := by
  constructor <;> decide

/-- C2 (witness): the amended mechanism applied to a window state whose
counter is already 1: the next equal comparison stops the guard. -/
theorem rep30_mechanism_wit :
    (guardStep (List.replicate 30 'A') ⟨List.replicate 30 'A', [], 1, 0⟩).2 =
      some StopReason.rep30Stop := by
  exact (rep30_mechanism_and_third_stop.1 (List.replicate 30 'A')
    ⟨List.replicate 30 'A', [], 1, 0⟩ (by decide)).1.mpr (by decide)

theorem guardPhrase_iff (resp : List Char) (w : Windows) (h : 100 < resp.length) :
    ((guardPhrase resp w).2 = some StopReason.phraseStop ↔
      MAX_REPEATED_PHRASES < countOcc (lastN 15 resp) resp) := by
  simp only [guardPhrase, if_pos h]
  split_ifs with hcnt <;> simp [hcnt]

theorem guard20_phrase_iff (resp : List Char) (w : Windows) (h100 : 100 < resp.length) :
    ((guard20 resp w).2 = some StopReason.phraseStop ↔
      (¬ (lastN 20 resp = w.last20 ∧ MAX_REPETITION + 1 ≤ w.rep20 + 1) ∧
        MAX_REPEATED_PHRASES < countOcc (lastN 15 resp) resp)) := by
  have h20 : 20 ≤ resp.length := by omega
  simp only [guard20, if_pos h20]
  by_cases he : lastN 20 resp = w.last20
  · rw [if_pos he]
    by_cases hc : MAX_REPETITION + 1 ≤ w.rep20 + 1
    · rw [if_pos hc]
      constructor
      · intro h'
        simp at h'
      · rintro ⟨habs, _⟩
        exact absurd ⟨he, hc⟩ habs
    · rw [if_neg hc]
      rw [guardPhrase_iff _ _ h100]
      constructor
      · intro hcnt
        exact ⟨fun hand => absurd hand.2 hc, hcnt⟩
      · rintro ⟨_, hcnt⟩
        exact hcnt
  · rw [if_neg he]
    rw [guardPhrase_iff _ _ h100]
    constructor
    · intro hcnt
      exact ⟨fun hand => absurd hand.1 he, hcnt⟩
    · rintro ⟨_, hcnt⟩
      exact hcnt

/-- C8: once the response is longer than 100 characters, the step stops
with the repeated-phrase reason exactly when the non-overlapping
left-to-right occurrence count of the trailing 15 characters in the whole
response exceeds `MAX_REPEATED_PHRASES = 4` (i.e. at the 5th counted
occurrence) and neither the trailing-30 nor the trailing-20 window check
fired first — the phrase check runs after both window checks. -/
theorem phrase_guard_threshold (resp : List Char) (w : Windows)
    (h : 100 < resp.length) :
    ((guardStep resp w).2 = some StopReason.phraseStop ↔
      (¬ (lastN 30 resp = w.last30 ∧ MAX_REPETITION ≤ w.rep30 + 1) ∧
       ¬ (lastN 20 resp = w.last20 ∧ MAX_REPETITION + 1 ≤ w.rep20 + 1) ∧
       MAX_REPEATED_PHRASES < countOcc (lastN 15 resp) resp)) := by
  have h30 : 30 ≤ resp.length := by omega
  simp only [guardStep, if_pos h30]
  by_cases he30 : lastN 30 resp = w.last30
  · rw [if_pos he30]
    by_cases hc30 : MAX_REPETITION ≤ w.rep30 + 1
    · rw [if_pos hc30]
      constructor
      · intro h'
        simp at h'
      · rintro ⟨habs, _, _⟩
        exact absurd ⟨he30, hc30⟩ habs
    · rw [if_neg hc30]
      rw [guard20_phrase_iff _ _ h]
      constructor
      · rintro ⟨h2, hcnt⟩
        exact ⟨fun hand => absurd hand.2 hc30, h2, hcnt⟩
      · rintro ⟨_, h2, hcnt⟩
        exact ⟨h2, hcnt⟩
  · rw [if_neg he30]
    rw [guard20_phrase_iff _ _ h]
    constructor
    · rintro ⟨h2, hcnt⟩
      exact ⟨fun hand => absurd hand.1 he30, h2, hcnt⟩
    · rintro ⟨_, h2, hcnt⟩
      exact ⟨h2, hcnt⟩

/-- C8 (witness): a 105-character response made of seven copies of a
15-character block stops with the repeated-phrase reason (the trailing 15
characters occur 7 > 4 times). -/
theorem phrase_guard_threshold_wit :
    (guardStep phraseResp w0).2 = some StopReason.phraseStop := by
  exact (phrase_guard_threshold phraseResp w0 (by decide)).mpr (by decide)

/-- C7 (counterexample): a session whose loop exits with an empty response
(immediate end-of-sequence) returns the marker
`"Error: No response generated"`, which is not the text
`"No response generated"` the claim states. -/
theorem empty_marker_text_cex :
    (generateNative engEos g0 [0] 0).1 = GenResult.completed [] StopReason.eosToken ∧
    returnedString (generateNative engEos g0 [0] 0).1 = emptyMarker ∧
    emptyMarker ≠ "No response generated".toList := by
  exact ⟨rfl, rfl, by decide⟩

/-- C7 (amended): `generateNative` never returns the empty string, and
whenever the loop exits with an empty accumulated response the returned
text is the explicit marker `"Error: No response generated"` (not the bare
`"No response generated"` of the claim). -/
theorem never_empty_response (e : Engine) (g : GlobalState) (tokens : List Int)
    (mrl : Int) :
    returnedString (generateNative e g tokens mrl).1 ≠ [] ∧
    (∀ r reason, (generateNative e g tokens mrl).1 = GenResult.completed r reason →
      r = [] → returnedString (generateNative e g tokens mrl).1 = emptyMarker) := by
  constructor
  · cases hres : (generateNative e g tokens mrl).1 with
    | preError p => cases p <;> decide
    | caught msg =>
      simp only [returnedString]
      split_ifs with h
      · decide
      · exact h
    | completed text reason =>
      simp only [returnedString]
      split_ifs with h
      · decide
      · exact h
  · intro r reason hres hr
    rw [hres]
    simp [returnedString, hr]

/-- C7 (witness): the amended statement on the immediate-EOS run. -/
theorem never_empty_response_wit :
    returnedString (generateNative engEos g0 [0] 0).1 ≠ [] ∧
    returnedString (generateNative engEos g0 [0] 0).1 = emptyMarker := by
  have h := never_empty_response engEos g0 [0] 0
  exact ⟨h.1, h.2 [] StopReason.eosToken (by decide) rfl⟩

/-- C9: generation never appends past the cap: every strict prefix of the
appended fragments keeps the response within `MAX_RESPONSE_LENGTH mrl`
(so as soon as an append pushes the response over the cap, nothing further
is appended), a loop that ends by exhausting the token budget ends within
the cap (the over-cap stop is never the budget running out), and the cap
is the caller value when positive and 800 otherwise. -/
theorem length_cap_stops_appends (e : Engine) (g : GlobalState)
    (tokens : List Int) (mrl : Int) :
    (∀ j, j < (appendsOf (generateNative e g tokens mrl).2.1).length →
      lenSum ((appendsOf (generateNative e g tokens mrl).2.1).take j) ≤
        MAX_RESPONSE_LENGTH mrl) ∧
    (∀ r, (generateNative e g tokens mrl).1 =
        GenResult.completed r StopReason.budgetExhausted →
      r.length ≤ MAX_RESPONSE_LENGTH mrl) ∧
    (0 < mrl → MAX_RESPONSE_LENGTH mrl = mrl.toNat) ∧
    (mrl ≤ 0 → MAX_RESPONSE_LENGTH mrl = 800) := by
  have hcapdef : (0 < mrl → MAX_RESPONSE_LENGTH mrl = mrl.toNat) ∧
      (mrl ≤ 0 → MAX_RESPONSE_LENGTH mrl = 800) := by
    constructor
    · intro h
      simp [MAX_RESPONSE_LENGTH, h]
    · intro h
      simp only [MAX_RESPONSE_LENGTH]
      rw [if_neg (by omega)]
  suffices hmain :
      (∀ j, j < (appendsOf (generateNative e g tokens mrl).2.1).length →
        lenSum ((appendsOf (generateNative e g tokens mrl).2.1).take j) ≤
          MAX_RESPONSE_LENGTH mrl) ∧
      (∀ r, (generateNative e g tokens mrl).1 =
          GenResult.completed r StopReason.budgetExhausted →
        r.length ≤ MAX_RESPONSE_LENGTH mrl) by
    exact ⟨hmain.1, hmain.2, hcapdef.1, hcapdef.2⟩
  by_cases hL : ¬ g.model_loaded ∨ g.g_ctx = none ∨ g.g_model = none
  · have hres : generateNative e g tokens mrl =
        (GenResult.preError PreErr.notLoaded, [], g) := by
      simp only [generateNative, if_pos hL]
    constructor
    · intro j hj
      simp only [hres] at hj
      simp [appendsOf] at hj
    · intro r hr
      simp only [hres] at hr
      simp at hr
  · have hm : g.model_loaded = true := by
      cases hb : g.model_loaded
      · exact absurd (Or.inl (by simp [hb])) hL
      · rfl
    have hc : g.g_ctx ≠ none := fun h => hL (Or.inr (Or.inl h))
    have hgm : g.g_model ≠ none := fun h => hL (Or.inr (Or.inr h))
    cases hexc : e.exc with
    | some msg =>
      have hres : generateNative e g tokens mrl = (GenResult.caught msg, [], g) := by
        simp only [generateNative, if_neg hL, hexc]
      constructor
      · intro j hj
        simp only [hres] at hj
        simp [appendsOf] at hj
      · intro r hr
        simp only [hres] at hr
        simp at hr
    | none =>
      by_cases ht : tokens = []
      · have hres : generateNative e g tokens mrl =
            (GenResult.preError PreErr.tokenizeFailed, [], g) := by
          simp only [generateNative, if_neg hL, hexc, if_pos ht]
        constructor
        · intro j hj
          simp only [hres] at hj
          simp [appendsOf] at hj
        · intro r hr
          simp only [hres] at hr
          simp at hr
      · by_cases hp : e.promptDecode = 0
        · by_cases hnp : sessionNP tokens ≤ 0
          · have hres := generateNative_tooLong e g tokens mrl hm hc hgm hexc ht hp hnp
            constructor
            · intro j hj
              simp only [hres] at hj
              simp [appendsOf] at hj
            · intro r hr
              simp only [hres] at hr
              simp at hr
          · have hres := generateNative_loop e g tokens mrl hm hc hgm hexc ht hp hnp
            have hcap := genLoop_cap e (MAX_RESPONSE_LENGTH mrl) (sessionNP tokens).toNat
              0 [] ⟨[], [], 0, 0⟩ (by simp)
            have happ : appendsOf (Ev.decode tokens.length 0 ::
                Ev.check (sessionNP tokens) :: (sessionOut e tokens mrl).evs) =
                appendsOf (sessionOut e tokens mrl).evs := by
              simp [appendsOf]
            constructor
            · intro j hj
              simp only [hres, happ] at hj ⊢
              have h1 := hcap.1 j hj
              simpa using h1
            · intro r hr
              simp only [hres] at hr
              injection hr with h1 h2
              rw [← h1]
              exact hcap.2 h2
        · by_cases hp1 : e.promptDecode = 1
          · have hres : generateNative e g tokens mrl =
                (GenResult.preError PreErr.promptCtxFull,
                  [Ev.decode tokens.length e.promptDecode], g) := by
              simp only [generateNative, if_neg hL, hexc, if_neg ht, if_pos hp,
                if_pos hp1]
            constructor
            · intro j hj
              simp only [hres] at hj
              simp [appendsOf] at hj
            · intro r hr
              simp only [hres] at hr
              simp at hr
          · have hres : generateNative e g tokens mrl =
                (GenResult.preError PreErr.promptDecodeFailed,
                  [Ev.decode tokens.length e.promptDecode], g) := by
              simp only [generateNative, if_neg hL, hexc, if_neg ht, if_pos hp,
                if_neg hp1]
            constructor
            · intro j hj
              simp only [hres] at hj
              simp [appendsOf] at hj
            · intro r hr
              simp only [hres] at hr
              simp at hr

/-- C9 (witness): the cap equations at 50 and 0, and the prefix bound on a
concrete run. -/
theorem length_cap_stops_appends_wit :
    MAX_RESPONSE_LENGTH 50 = (50 : Int).toNat ∧ MAX_RESPONSE_LENGTH 0 = 800 ∧
    lenSum ((appendsOf (generateNative engDecodeFail g0 [0] 0).2.1).take 0) ≤
      MAX_RESPONSE_LENGTH 0 := by
  exact ⟨(length_cap_stops_appends engDecodeFail g0 [0] 50).2.2.1 (by decide),
    (length_cap_stops_appends engDecodeFail g0 [0] 0).2.2.2 (by decide),
    (length_cap_stops_appends engDecodeFail g0 [0] 0).1 0 (by decide)⟩

end LlamaJni
